import Mathlib

/-!
Verification of the ink! token contract (src/lib.rs) against its
natural-language specification.

The contract's storage struct `Token` holds a `Mapping<AccountId, u128>`
of balances, the `owner : AccountId`, and `total_supply : u128`.  Account
identifiers are modelled as `Nat`; `u128` values are modelled as `Nat`
with explicit bounds checks against `2 ^ 128 - 1` where the source uses
`checked_add` / `checked_sub`.  The `Mapping` is modelled as
`Nat → Option Nat`: `get` with `unwrap_or(0)` becomes `Option.getD _ 0`,
`insert` becomes a `Function.update` to `some _`.

Every `#[ink(message)]` takes `&mut self` and resolves the caller from the
environment; the embedding threads the state explicitly and passes the
caller as a parameter.  A message returns `Result<()>` on the normal
paths; the source also contains `.expect(..)` calls that panic.  A panic
is modelled as a third outcome `Res.panicked msg` carrying the message of
the failed `expect`; the state component of the returned triple is the
storage as mutated up to the point where execution stopped, mirroring the
textual order of `insert` calls and `expect`s in the source.  Emitted
events are collected in a list.
-/

/-- Largest value representable in an unsigned 128-bit integer. -/
def UMAX : Nat := 2 ^ 128 - 1

/-- Rust `u128::checked_add`: `some (a + b)` unless the exact sum exceeds
the 128-bit range, in which case `none`. -/
def checked_add (a b : Nat) : Option Nat :=
  if a + b ≤ UMAX then some (a + b) else none

/-- Rust `u128::checked_sub`: `some (a - b)` when `b ≤ a`, otherwise
`none` (unsigned subtraction would underflow). -/
def checked_sub (a b : Nat) : Option Nat :=
  if b ≤ a then some (a - b) else none

/-- The error enum of src/lib.rs (lines 10-17).  It has exactly these
three variants; in particular there is no `Overflow` variant. -/
inductive Error where
  | InsufficientBalance
  | Unauthorized
  | SelfTransfer
deriving DecidableEq

/-- Events emitted by the contract: `Mint { to, amount }` and
`Transfer { from, to, amount }`.  (`from` is a reserved word in Lean, so
the first field of `Transfer` is called `sender`.) -/
inductive Event where
  | Mint (toAcc amount : Nat)
  | Transfer (sender toAcc amount : Nat)
deriving DecidableEq

/-- Outcome of one message call: normal return `Ok(())`, normal return
`Err(e)`, or a panic raised by a failed `.expect(msg)`. -/
inductive Res where
  | ok
  | err (e : Error)
  | panicked (msg : String)
deriving DecidableEq

/-- The `Token` storage struct: balances mapping, owner, total supply. -/
structure Token where
  balances : Nat → Option Nat
  owner : Nat
  total_supply : Nat

/-- The constructor `Token::new()`: empty balances, owner = caller,
total supply 0. -/
def Token.new (caller : Nat) : Token :=
  { balances := fun _ => none, owner := caller, total_supply := 0 }

/-- The query `balance_of`: `self.balances.get(account).unwrap_or(0)`. -/
def Token.balance_of (st : Token) (account : Nat) : Nat :=
  (st.balances account).getD 0

/-- `Token::mint(to, amount)` (src/lib.rs lines 78-100), caller made
explicit.  The order of effects follows the source exactly: the owner
check, then `checked_add` on the recipient balance (panic on `None`),
then the balance `insert`, then `checked_add` on the total supply (panic
on `None`), then the supply write and the `Mint` event. -/
def Token.mint (st : Token) (caller toAcc amount : Nat) : Res × Token × List Event :=
  if caller ≠ st.owner then
    (Res.err Error.Unauthorized, st, [])
  else
    let current_balance := (st.balances toAcc).getD 0
    match checked_add current_balance amount with
    | none => (Res.panicked "Overflow when adding to balance", st, [])
    | some new_balance =>
      let st1 : Token :=
        { st with balances := Function.update st.balances toAcc (some new_balance) }
      match checked_add st1.total_supply amount with
      | none => (Res.panicked "Overflow when updating total supply", st1, [])
      | some new_supply =>
        (Res.ok, { st1 with total_supply := new_supply }, [Event.Mint toAcc amount])

/-- `Token::transfer(to, amount)` (src/lib.rs lines 110-142), caller made
explicit.  Checks in source order: self-transfer, then the balance
check; then both `checked_sub` and `checked_add` (each panics on `None`)
are evaluated before either `insert` runs. -/
def Token.transfer (st : Token) (caller toAcc amount : Nat) : Res × Token × List Event :=
  if caller = toAcc then
    (Res.err Error.SelfTransfer, st, [])
  else
    let from_balance := (st.balances caller).getD 0
    if from_balance < amount then
      (Res.err Error.InsufficientBalance, st, [])
    else
      let to_balance := (st.balances toAcc).getD 0
      match checked_sub from_balance amount with
      | none => (Res.panicked "Underflow when subtracting from balance", st, [])
      | some new_from_balance =>
        match checked_add to_balance amount with
        | none => (Res.panicked "Overflow when adding to balance", st, [])
        | some new_to_balance =>
          let st1 : Token :=
            { st with balances := Function.update st.balances caller (some new_from_balance) }
          let st2 : Token :=
            { st1 with balances := Function.update st1.balances toAcc (some new_to_balance) }
          (Res.ok, st2, [Event.Transfer caller toAcc amount])

/-- States reachable from `Token::new` by sequences of successful
(`Ok`-returning) `mint` and `transfer` calls, with arbitrary callers and
arguments. -/
inductive Reachable : Token → Prop
  | create (caller : Nat) : Reachable (Token.new caller)
  | mint (st : Token) (c t a : Nat) : Reachable st →
      (Token.mint st c t a).1 = Res.ok → Reachable (Token.mint st c t a).2.1
  | transfer (st : Token) (c t a : Nat) : Reachable st →
      (Token.transfer st c t a).1 = Res.ok → Reachable (Token.transfer st c t a).2.1

/-- The conservation invariant: some finite set of accounts carries all
nonzero balances, and the stored total supply equals the sum of the
balances over it. -/
def Conserves (st : Token) : Prop :=
  ∃ s : Finset Nat, (∀ x, x ∉ s → st.balance_of x = 0) ∧
    st.total_supply = ∑ x ∈ s, st.balance_of x

/-- Modelled from the spec: the error taxonomy of the mature iteration of
the contract (spec section 7).  The repository is described as holding
three near-duplicate iterations of the design; only the earliest one is
under src/, and its `Error` enum lacks the `InsufficientAllowance`,
`ContractPaused`, `Blacklisted`, `BatchLengthMismatch` and `Overflow`
variants used by the mature iteration's gating logic. -/
inductive SpecError where
  | InsufficientBalance
  | Unauthorized
  | SelfTransfer
  | InsufficientAllowance
  | ContractPaused
  | Blacklisted
  | BatchLengthMismatch
  | Overflow
deriving DecidableEq

/-- Modelled from the spec: the ledger state of the mature iteration,
which adds the ControlState `halted` flag and the ComplianceFlags
`restricted` map (spec sections 2-3) to the stores present in src/. -/
structure LedgerState where
  balances : Nat → Option Nat
  owner : Nat
  total_supply : Nat
  halted : Bool
  restricted : Nat → Bool

/-- Balance lookup with zero default, as in the src/ iteration. -/
def LedgerState.balance_of (st : LedgerState) (account : Nat) : Nat :=
  (st.balances account).getD 0

/-- Modelled from the spec: `transfer(to, amount)` of the mature
iteration (spec section 4.1), whose code is not under src/.  Ordered
checks, first failure wins: (a) halted yields `ContractPaused`; (b)
sender or recipient restricted yields `Blacklisted`; (c) sender equals
recipient yields `SelfTransfer`; (d) sender balance below amount yields
`InsufficientBalance`; then both new balances are computed by checked
arithmetic (failing explicitly with `Overflow`) before either commits,
and a Transfer event is emitted. -/
def LedgerState.transfer (st : LedgerState) (caller toAcc amount : Nat) :
    Except SpecError (LedgerState × List Event) :=
  if st.halted then .error .ContractPaused
  else if st.restricted caller || st.restricted toAcc then .error .Blacklisted
  else if caller = toAcc then .error .SelfTransfer
  else
    let from_balance := (st.balances caller).getD 0
    if from_balance < amount then .error .InsufficientBalance
    else
      match checked_sub from_balance amount,
            checked_add ((st.balances toAcc).getD 0) amount with
      | some new_from_balance, some new_to_balance =>
          .ok ({ st with
                  balances := Function.update
                    (Function.update st.balances caller (some new_from_balance))
                    toAcc (some new_to_balance) },
               [Event.Transfer caller toAcc amount])
      | _, _ => .error .Overflow

example : (Token.mint (Token.new 0) 0 1 100).1 = Res.ok := by decide
example : (Token.mint (Token.new 0) 0 1 100).2.1.total_supply = 100 := by decide
example : (Token.mint (Token.new 0) 5 1 100).1 = Res.err Error.Unauthorized := by decide
example : (Token.transfer (Token.new 0) 3 3 7).1 = Res.err Error.SelfTransfer := by decide
example :
    (Token.mint { balances := fun x => if x = 1 then some UMAX else none,
                  owner := 0, total_supply := UMAX } 0 1 1).1
      = Res.panicked "Overflow when adding to balance" := by decide

lemma balance_of_mk (b : Nat → Option Nat) (o ts x : Nat) :
    (Token.mk b o ts).balance_of x = (b x).getD 0 := rfl

lemma getD_update_some (f : Nat → Option Nat) (t v x : Nat) :
    (Function.update f t (some v) x).getD 0
      = Function.update (fun y => (f y).getD 0) t v x := by
  by_cases h : x = t <;> simp [Function.update_apply, h]

lemma sum_insert_update (s : Finset Nat) (f : Nat → Nat) (h0 : ∀ x, x ∉ s → f x = 0)
    (t v : Nat) :
    f t + ∑ x ∈ insert t s, Function.update f t v x = v + ∑ x ∈ s, f x := by
  have ht : t ∈ insert t s := Finset.mem_insert_self t s
  rw [Finset.sum_update_of_mem ht]
  have hrw : ∑ x ∈ (insert t s) \ {t}, f x = ∑ x ∈ s.erase t, f x := by
    rw [Finset.sdiff_singleton_eq_erase, Finset.erase_insert_eq_erase]
  rw [hrw]
  by_cases hts : t ∈ s
  · rw [← Finset.add_sum_erase s f hts]; ring
  · rw [Finset.erase_eq_of_not_mem hts, h0 t hts]; ring

/-- C6: for every state, caller and amount, `transfer` with recipient
equal to the caller returns the `SelfTransfer` error and changes
nothing, regardless of the caller's balance. -/
theorem self_transfer_always_fails (st : Token) (c a : Nat) :
    Token.transfer st c c a = (Res.err Error.SelfTransfer, st, []) := by
  simp [Token.transfer]

/-- C4: whenever `mint` or `transfer` returns an `Err` value, the whole
storage struct (all balances, the total supply and the owner identity)
is exactly its pre-call value. -/
theorem error_implies_state_unchanged (st : Token) (c t a : Nat) (e : Error) :
    ((Token.mint st c t a).1 = Res.err e → (Token.mint st c t a).2.1 = st) ∧
    ((Token.transfer st c t a).1 = Res.err e → (Token.transfer st c t a).2.1 = st) := by
  constructor
  · by_cases hc : c ≠ st.owner
    · simp [Token.mint, hc]
    · rcases hca : checked_add ((st.balances t).getD 0) a with _ | nb
      · simp [Token.mint, hc, hca]
      · rcases hcs : checked_add st.total_supply a with _ | ns
        · simp [Token.mint, hc, hca, hcs]
        · simp [Token.mint, hc, hca, hcs]
  · by_cases hc : c = t
    · simp [Token.transfer, hc]
    · by_cases hfb : (st.balances c).getD 0 < a
      · simp [Token.transfer, hc, hfb]
      · rcases hcs : checked_sub ((st.balances c).getD 0) a with _ | nf
        · simp [Token.transfer, hc, hfb, hcs]
        · rcases hca : checked_add ((st.balances t).getD 0) a with _ | nt
          · simp [Token.transfer, hc, hfb, hcs, hca]
          · simp [Token.transfer, hc, hfb, hcs, hca]

/-- Witness for C4: a non-owner mint and a self-transfer both return an
error and leave the concrete state untouched. -/
theorem error_implies_state_unchanged_witness :
    (Token.mint (Token.new 0) 5 1 7).2.1 = Token.new 0 ∧
    (Token.transfer (Token.new 0) 3 3 7).2.1 = Token.new 0 :=
  ⟨(error_implies_state_unchanged (Token.new 0) 5 1 7 Error.Unauthorized).1 (by decide),
   (error_implies_state_unchanged (Token.new 0) 3 3 7 Error.SelfTransfer).2 (by decide)⟩

/-- C7: `mint(to, amount)` returns `Unauthorized` for every caller other
than the owner; when the owner calls it and neither checked addition
overflows, it returns `Ok`, the recipient balance and the total supply
each grow by `amount`, and the `Mint { to, amount }` event is emitted. -/
theorem mint_spec (st : Token) (c t a : Nat) :
    (c ≠ st.owner → Token.mint st c t a = (Res.err Error.Unauthorized, st, [])) ∧
    (c = st.owner → st.balance_of t + a ≤ UMAX → st.total_supply + a ≤ UMAX →
      (Token.mint st c t a).1 = Res.ok ∧
      (Token.mint st c t a).2.1.balance_of t = st.balance_of t + a ∧
      (Token.mint st c t a).2.1.total_supply = st.total_supply + a ∧
      (Token.mint st c t a).2.2 = [Event.Mint t a]) := by
  constructor
  · intro hc
    simp [Token.mint, hc]
  · intro hc hb hs
    have hb' : (st.balances t).getD 0 + a ≤ UMAX := hb
    simp [Token.mint, hc, checked_add, hb', hs, Token.balance_of, Function.update_apply]

/-- Witness for C7: on a concrete state, a non-owner mint fails with
`Unauthorized` and an owner mint of 100 to account 1 succeeds with the
expected balance, supply and event. -/
theorem mint_spec_witness :
    Token.mint (Token.new 0) 5 1 100 = (Res.err Error.Unauthorized, Token.new 0, []) ∧
    ((Token.mint (Token.new 0) 0 1 100).1 = Res.ok ∧
      (Token.mint (Token.new 0) 0 1 100).2.1.balance_of 1 = Token.balance_of (Token.new 0) 1 + 100 ∧
      (Token.mint (Token.new 0) 0 1 100).2.1.total_supply = (Token.new 0).total_supply + 100 ∧
      (Token.mint (Token.new 0) 0 1 100).2.2 = [Event.Mint 1 100]) :=
  ⟨(mint_spec (Token.new 0) 5 1 100).1 (by decide),
   (mint_spec (Token.new 0) 0 1 100).2 rfl (by decide) (by decide)⟩

/-- C8: for `transfer(to, amount)` with a recipient distinct from the
caller: when the caller holds at least `amount` and the recipient credit
does not overflow, the call succeeds, the sender is debited and the
recipient credited by `amount`, every other balance is untouched and the
`Transfer { from, to, amount }` event is emitted; when the caller's
balance is below `amount` the call fails with `InsufficientBalance` and
the state is unchanged; and when the recipient credit would overflow,
the failure happens before either balance write commits, so the state is
again unchanged. -/
theorem transfer_behavior (st : Token) (c t a : Nat) (hne : c ≠ t) :
    (a ≤ st.balance_of c → st.balance_of t + a ≤ UMAX →
      (Token.transfer st c t a).1 = Res.ok ∧
      (Token.transfer st c t a).2.1.balance_of c = st.balance_of c - a ∧
      (Token.transfer st c t a).2.1.balance_of t = st.balance_of t + a ∧
      (∀ x, x ≠ c → x ≠ t → (Token.transfer st c t a).2.1.balance_of x = st.balance_of x) ∧
      (Token.transfer st c t a).2.1.total_supply = st.total_supply ∧
      (Token.transfer st c t a).2.2 = [Event.Transfer c t a]) ∧
    (st.balance_of c < a →
      Token.transfer st c t a = (Res.err Error.InsufficientBalance, st, [])) ∧
    (a ≤ st.balance_of c → UMAX < st.balance_of t + a →
      Token.transfer st c t a = (Res.panicked "Overflow when adding to balance", st, [])) := by
  refine ⟨?_, ?_, ?_⟩
  · intro hfb hta
    have hfb' : ¬ ((st.balances c).getD 0 < a) := not_lt.mpr hfb
    have hta' : (st.balances t).getD 0 + a ≤ UMAX := hta
    have hsub : a ≤ (st.balances c).getD 0 := hfb
    simp only [Token.transfer, if_neg hne, hfb', if_false, checked_sub, checked_add,
      if_pos hsub, if_pos hta', ite_false]
    refine ⟨by trivial, ?_, ?_, ?_, by trivial, by trivial⟩
    · simp [Token.balance_of, Function.update_apply, hne, Ne.symm hne]
    · simp [Token.balance_of, Function.update_apply]
    · intro x hxc hxt
      simp [Token.balance_of, Function.update_apply, hxc, hxt]
  · intro hfb
    simp [Token.transfer, hne, Token.balance_of] at hfb ⊢
    simp [hfb]
  · intro hfb hta
    have hfb' : ¬ ((st.balances c).getD 0 < a) := not_lt.mpr hfb
    have hta' : ¬ ((st.balances t).getD 0 + a ≤ UMAX) := not_le.mpr hta
    have hsub : a ≤ (st.balances c).getD 0 := hfb
    simp [Token.transfer, hne, hfb', checked_sub, checked_add, hsub, hta']

/-- Witness for C8: from the state where account 0 owns 100 tokens,
account 0 sends 30 to account 1 (succeeds, balances 70 and 30, event
emitted), a 1000-token attempt fails with `InsufficientBalance` leaving
the state unchanged, and a credit that would exceed the 128-bit range
stops with the overflow panic before committing anything. -/
theorem transfer_behavior_witness :
    ((Token.transfer (Token.mint (Token.new 0) 0 0 100).2.1 0 1 30).1 = Res.ok ∧
      (Token.transfer (Token.mint (Token.new 0) 0 0 100).2.1 0 1 30).2.1.balance_of 0 =
        (Token.mint (Token.new 0) 0 0 100).2.1.balance_of 0 - 30 ∧
      (Token.transfer (Token.mint (Token.new 0) 0 0 100).2.1 0 1 30).2.1.balance_of 1 =
        (Token.mint (Token.new 0) 0 0 100).2.1.balance_of 1 + 30 ∧
      (∀ x, x ≠ 0 → x ≠ 1 →
        (Token.transfer (Token.mint (Token.new 0) 0 0 100).2.1 0 1 30).2.1.balance_of x =
          (Token.mint (Token.new 0) 0 0 100).2.1.balance_of x) ∧
      (Token.transfer (Token.mint (Token.new 0) 0 0 100).2.1 0 1 30).2.1.total_supply =
        (Token.mint (Token.new 0) 0 0 100).2.1.total_supply ∧
      (Token.transfer (Token.mint (Token.new 0) 0 0 100).2.1 0 1 30).2.2 =
        [Event.Transfer 0 1 30]) ∧
    Token.transfer (Token.mint (Token.new 0) 0 0 100).2.1 0 1 1000 =
      (Res.err Error.InsufficientBalance, (Token.mint (Token.new 0) 0 0 100).2.1, []) :=
  ⟨(transfer_behavior (Token.mint (Token.new 0) 0 0 100).2.1 0 1 30 (by decide)).1
      (by decide) (by decide),
   (transfer_behavior (Token.mint (Token.new 0) 0 0 100).2.1 0 1 1000 (by decide)).2.1
      (by decide)⟩

/-- C9: zero-amount boundary.  An owner `mint(to, 0)` and a
`transfer(to, 0)` with recipient distinct from the caller both return
`Ok` (the validity bounds say the pre-state holds genuine `u128`
values), leave every observable balance and the total supply at their
prior values, and still emit the `Mint { to, 0 }` respectively
`Transfer { from, to, 0 }` event. -/
theorem zero_amount_noop (st : Token) (c t : Nat) :
    (c = st.owner → st.balance_of t ≤ UMAX → st.total_supply ≤ UMAX →
      (Token.mint st c t 0).1 = Res.ok ∧
      (∀ x, (Token.mint st c t 0).2.1.balance_of x = st.balance_of x) ∧
      (Token.mint st c t 0).2.1.total_supply = st.total_supply ∧
      (Token.mint st c t 0).2.2 = [Event.Mint t 0]) ∧
    (c ≠ t → st.balance_of t ≤ UMAX →
      (Token.transfer st c t 0).1 = Res.ok ∧
      (∀ x, (Token.transfer st c t 0).2.1.balance_of x = st.balance_of x) ∧
      (Token.transfer st c t 0).2.1.total_supply = st.total_supply ∧
      (Token.transfer st c t 0).2.2 = [Event.Transfer c t 0]) := by
  constructor
  · intro hc hb hs
    have hb' : (st.balances t).getD 0 + 0 ≤ UMAX := by simpa using hb
    have hs' : st.total_supply + 0 ≤ UMAX := by simpa using hs
    simp only [Token.mint, hc, ne_eq, not_true_eq_false, if_false, ite_false, checked_add,
      if_pos hb', if_pos hs']
    refine ⟨by trivial, ?_, by trivial, by trivial⟩
    intro x
    by_cases hx : x = t <;> simp [Token.balance_of, Function.update_apply, hx]
  · intro hne hb
    have hfb' : ¬ ((st.balances c).getD 0 < 0) := by omega
    have hsub : (0 : Nat) ≤ (st.balances c).getD 0 := Nat.zero_le _
    have hb' : (st.balances t).getD 0 + 0 ≤ UMAX := by simpa using hb
    simp only [Token.transfer, if_neg hne, hfb', if_false, checked_sub, checked_add,
      if_pos hsub, if_pos hb', ite_false]
    refine ⟨by trivial, ?_, by trivial, by trivial⟩
    intro x
    by_cases hxt : x = t
    · simp [Token.balance_of, Function.update_apply, hxt]
    · by_cases hxc : x = c <;> simp [Token.balance_of, Function.update_apply, hxt, hxc, hne]

/-- Witness for C9: on the state where account 0 owns 100 tokens, an
owner mint of 0 to the absent account 1 and a transfer of 0 from the
empty account 2 to account 1 both succeed, leave balances and supply as
they were, and emit the zero-amount event. -/
theorem zero_amount_noop_witness :
    ((Token.mint (Token.mint (Token.new 0) 0 0 100).2.1 0 1 0).1 = Res.ok ∧
      (∀ x, (Token.mint (Token.mint (Token.new 0) 0 0 100).2.1 0 1 0).2.1.balance_of x =
        (Token.mint (Token.new 0) 0 0 100).2.1.balance_of x) ∧
      (Token.mint (Token.mint (Token.new 0) 0 0 100).2.1 0 1 0).2.1.total_supply =
        (Token.mint (Token.new 0) 0 0 100).2.1.total_supply ∧
      (Token.mint (Token.mint (Token.new 0) 0 0 100).2.1 0 1 0).2.2 = [Event.Mint 1 0]) ∧
    ((Token.transfer (Token.mint (Token.new 0) 0 0 100).2.1 2 1 0).1 = Res.ok ∧
      (∀ x, (Token.transfer (Token.mint (Token.new 0) 0 0 100).2.1 2 1 0).2.1.balance_of x =
        (Token.mint (Token.new 0) 0 0 100).2.1.balance_of x) ∧
      (Token.transfer (Token.mint (Token.new 0) 0 0 100).2.1 2 1 0).2.1.total_supply =
        (Token.mint (Token.new 0) 0 0 100).2.1.total_supply ∧
      (Token.transfer (Token.mint (Token.new 0) 0 0 100).2.1 2 1 0).2.2 =
        [Event.Transfer 2 1 0]) :=
  ⟨(zero_amount_noop (Token.mint (Token.new 0) 0 0 100).2.1 0 1).1
      (by decide) (by decide) (by decide),
   (zero_amount_noop (Token.mint (Token.new 0) 0 0 100).2.1 2 1).2
      (by decide) (by decide)⟩

/-- C2 counterexample: from the concrete state in which account 1
already holds the maximal `u128` value, an owner `mint(1, 1)` does not
return `Ok` and does not return any `Err` value: it aborts with the
panic raised by `.expect("Overflow when adding to balance")`.  The
`Error` enum of src/lib.rs has no `Overflow` variant, so overflow is
never "reported to the caller as an explicit Overflow error". -/
theorem overflow_aborts_instead_of_error :
    (Token.mint { balances := fun x => if x = 1 then some UMAX else none,
                  owner := 0, total_supply := UMAX } 0 1 1).1
      = Res.panicked "Overflow when adding to balance" := by decide

/-- C2 amended: arithmetic on the 128-bit amounts never wraps and never
saturates: every successful `mint` computes the exact (unreduced) sums,
and any addition that would exceed the 128-bit range stops the operation
with a panic whose message names the overflow, rather than committing a
wrapped value - but that overflow is an abort (a failed `expect`), not a
returned `Overflow` error value. -/
theorem checked_arithmetic_never_wraps (st : Token) (c t a : Nat) :
    (c = st.owner → UMAX < st.balance_of t + a →
      Token.mint st c t a = (Res.panicked "Overflow when adding to balance", st, [])) ∧
    (c = st.owner → st.balance_of t + a ≤ UMAX → UMAX < st.total_supply + a →
      (Token.mint st c t a).1 = Res.panicked "Overflow when updating total supply") ∧
    (c ≠ t → a ≤ st.balance_of c → UMAX < st.balance_of t + a →
      Token.transfer st c t a = (Res.panicked "Overflow when adding to balance", st, [])) ∧
    ((Token.mint st c t a).1 = Res.ok →
      (Token.mint st c t a).2.1.balance_of t = st.balance_of t + a ∧
      (Token.mint st c t a).2.1.total_supply = st.total_supply + a) := by
  refine ⟨?_, ?_, ?_, ?_⟩
  · intro hc hb
    have hb' : ¬ ((st.balances t).getD 0 + a ≤ UMAX) := not_le.mpr hb
    simp [Token.mint, hc, checked_add, hb']
  · intro hc hb hs
    have hb' : (st.balances t).getD 0 + a ≤ UMAX := hb
    have hs' : ¬ (st.total_supply + a ≤ UMAX) := not_le.mpr hs
    simp [Token.mint, hc, checked_add, hb', hs']
  · intro hne hfb hta
    have hfb' : ¬ ((st.balances c).getD 0 < a) := not_lt.mpr hfb
    have hsub : a ≤ (st.balances c).getD 0 := hfb
    have hta' : ¬ ((st.balances t).getD 0 + a ≤ UMAX) := not_le.mpr hta
    simp [Token.transfer, hne, hfb', checked_sub, checked_add, hsub, hta']
  · intro hok
    by_cases hc : c ≠ st.owner
    · simp [Token.mint, hc] at hok
    · by_cases hb : (st.balances t).getD 0 + a ≤ UMAX
      · by_cases hs : st.total_supply + a ≤ UMAX
        · simp [Token.mint, hc, checked_add, hb, hs, Token.balance_of, Function.update_apply]
        · simp [Token.mint, hc, checked_add, hb, hs] at hok
      · simp [Token.mint, hc, checked_add, hb] at hok

/-- Witness for C2's amended theorem: concrete overflows abort with the
expected messages, and a concrete successful mint computes exact sums. -/
theorem checked_arithmetic_never_wraps_witness :
    Token.mint { balances := fun x => if x = 1 then some UMAX else none,
                 owner := 0, total_supply := UMAX } 0 1 1
      = (Res.panicked "Overflow when adding to balance",
         { balances := fun x => if x = 1 then some UMAX else none,
           owner := 0, total_supply := UMAX }, []) ∧
    ((Token.mint (Token.new 0) 0 1 100).2.1.balance_of 1 =
        Token.balance_of (Token.new 0) 1 + 100 ∧
      (Token.mint (Token.new 0) 0 1 100).2.1.total_supply =
        (Token.new 0).total_supply + 100) :=
  ⟨(checked_arithmetic_never_wraps
      { balances := fun x => if x = 1 then some UMAX else none,
        owner := 0, total_supply := UMAX } 0 1 1).1 rfl (by decide),
   (checked_arithmetic_never_wraps (Token.new 0) 0 1 100).2.2.2 (by decide)⟩

/-- C3 is violated by the code: starting from the reachable state where
account 0 holds the full `u128` range (owner 0 minted `UMAX` to itself),
the owner calls `mint(1, 1)`.  The balance-side `checked_add` succeeds
and the new balance is inserted, and only then does the supply-side
`checked_add` fail: execution stops with the supply panic while the
recipient's balance is already 1 and `total_supply` is still `UMAX`.
The balance mutation therefore commits without the supply mutation,
exactly what the claim says can never happen. -/
theorem mint_partial_commit_on_supply_overflow :
    Reachable (Token.mint (Token.new 0) 0 0 UMAX).2.1 ∧
    (Token.mint (Token.mint (Token.new 0) 0 0 UMAX).2.1 0 1 1).1
      = Res.panicked "Overflow when updating total supply" ∧
    (Token.mint (Token.mint (Token.new 0) 0 0 UMAX).2.1 0 1 1).2.1.balance_of 1 = 1 ∧
    (Token.mint (Token.mint (Token.new 0) 0 0 UMAX).2.1 0 1 1).2.1.total_supply = UMAX :=
  ⟨Reachable.mint (Token.new 0) 0 0 UMAX (Reachable.create 0) (by decide),
   by decide, by decide, by decide⟩

lemma mint_ok_result (st : Token) (c t a : Nat) (h : (Token.mint st c t a).1 = Res.ok) :
    (∀ x, (Token.mint st c t a).2.1.balance_of x
        = Function.update st.balance_of t (st.balance_of t + a) x) ∧
    (Token.mint st c t a).2.1.total_supply = st.total_supply + a := by
  by_cases hc : c ≠ st.owner
  · simp [Token.mint, hc] at h
  · by_cases hb : (st.balances t).getD 0 + a ≤ UMAX
    · by_cases hs : st.total_supply + a ≤ UMAX
      · constructor
        · intro x
          by_cases hx : x = t <;>
            simp [Token.mint, hc, checked_add, hb, hs, Token.balance_of,
              Function.update_apply, hx]
        · simp [Token.mint, hc, checked_add, hb, hs]
      · simp [Token.mint, hc, checked_add, hb, hs] at h
    · simp [Token.mint, hc, checked_add, hb] at h

lemma transfer_ok_result (st : Token) (c t a : Nat) (h : (Token.transfer st c t a).1 = Res.ok) :
    c ≠ t ∧ a ≤ st.balance_of c ∧
    (∀ x, (Token.transfer st c t a).2.1.balance_of x
        = Function.update (Function.update st.balance_of c (st.balance_of c - a)) t
            (st.balance_of t + a) x) ∧
    (Token.transfer st c t a).2.1.total_supply = st.total_supply := by
  by_cases hne : c = t
  · simp [Token.transfer, hne] at h
  · by_cases hfb : (st.balances c).getD 0 < a
    · simp [Token.transfer, hne, hfb] at h
    · have hsub : a ≤ (st.balances c).getD 0 := not_lt.mp hfb
      by_cases hta : (st.balances t).getD 0 + a ≤ UMAX
      · refine ⟨hne, hsub, ?_, ?_⟩
        · intro x
          by_cases hxt : x = t
          · simp [Token.transfer, hne, hfb, checked_sub, checked_add, hsub, hta,
              Token.balance_of, Function.update_apply, hxt]
          · by_cases hxc : x = c <;>
              simp [Token.transfer, hne, hfb, checked_sub, checked_add, hsub, hta,
                Token.balance_of, Function.update_apply, hxt, hxc]
        · simp [Token.transfer, hne, hfb, checked_sub, checked_add, hsub, hta]
      · simp [Token.transfer, hne, hfb, checked_sub, checked_add, hsub, hta] at h

/-- C1: every state reachable from the constructor by successful `mint`
and `transfer` calls satisfies the conservation invariant: the stored
`total_supply` equals the sum of all account balances. -/
theorem reachable_conservation (st : Token) (h : Reachable st) : Conserves st := by
  induction h with
  | create c =>
      exact ⟨∅, fun x _ => rfl, by simp [Token.new]⟩
  | mint st c t a hst hok ih =>
      obtain ⟨s, h0, hsum⟩ := ih
      obtain ⟨hbal, hsup⟩ := mint_ok_result st c t a hok
      refine ⟨insert t s, ?_, ?_⟩
      · intro x hx
        rw [Finset.mem_insert] at hx
        push_neg at hx
        rw [hbal x, Function.update_apply, if_neg hx.1, h0 x hx.2]
      · have hcong : ∑ x ∈ insert t s, (Token.mint st c t a).2.1.balance_of x
            = ∑ x ∈ insert t s, Function.update st.balance_of t (st.balance_of t + a) x :=
          Finset.sum_congr rfl (fun x _ => hbal x)
        have key := sum_insert_update s st.balance_of h0 t (st.balance_of t + a)
        rw [hcong, hsup]
        omega
  | transfer st c t a hst hok ih =>
      obtain ⟨s, h0, hsum⟩ := ih
      obtain ⟨hne, hfb, hbal, hsup⟩ := transfer_ok_result st c t a hok
      refine ⟨insert t (insert c s), ?_, ?_⟩
      · intro x hx
        rw [Finset.mem_insert, Finset.mem_insert] at hx
        push_neg at hx
        rw [hbal x, Function.update_apply, if_neg hx.1, Function.update_apply, if_neg hx.2.1,
          h0 x hx.2.2]
      · have hcong : ∑ x ∈ insert t (insert c s), (Token.transfer st c t a).2.1.balance_of x
            = ∑ x ∈ insert t (insert c s),
                Function.update (Function.update st.balance_of c (st.balance_of c - a)) t
                  (st.balance_of t + a) x :=
          Finset.sum_congr rfl (fun x _ => hbal x)
        have h0g : ∀ x, x ∉ insert c s →
            Function.update st.balance_of c (st.balance_of c - a) x = 0 := by
          intro x hx
          rw [Finset.mem_insert] at hx
          push_neg at hx
          rw [Function.update_apply, if_neg hx.1, h0 x hx.2]
        have key1 := sum_insert_update (insert c s)
          (Function.update st.balance_of c (st.balance_of c - a)) h0g t (st.balance_of t + a)
        have key2 := sum_insert_update s st.balance_of h0 c (st.balance_of c - a)
        have hgt : Function.update st.balance_of c (st.balance_of c - a) t = st.balance_of t := by
          rw [Function.update_apply, if_neg (Ne.symm hne)]
        rw [hcong, hsup]
        omega

/-- Witness for C1: the state reached by creating the ledger, minting
100 to the owner and transferring 30 to account 1 satisfies the
conservation invariant. -/
theorem reachable_conservation_witness :
    Conserves (Token.transfer (Token.mint (Token.new 0) 0 0 100).2.1 0 1 30).2.1 :=
  reachable_conservation _
    (Reachable.transfer _ 0 1 30
      (Reachable.mint _ 0 0 100 (Reachable.create 0) (by decide)) (by decide))

/-- C10: from any state that satisfies the conservation invariant with a
`total_supply` in the valid `u128` range, `transfer` never reaches a
panic branch: the guarded `checked_sub` cannot underflow and the
recipient-side `checked_add` cannot overflow (both balances together are
bounded by the total supply), so every call returns a `Result` value. -/
theorem transfer_no_panic_from_conserving (st : Token) (hcons : Conserves st)
    (hvalid : st.total_supply ≤ UMAX) (c t a : Nat) (msg : String) :
    (Token.transfer st c t a).1 ≠ Res.panicked msg := by
  obtain ⟨s, h0, hsum⟩ := hcons
  by_cases hne : c = t
  · simp [Token.transfer, hne]
  · by_cases hfb : (st.balances c).getD 0 < a
    · simp [Token.transfer, hne, hfb]
    · have hsub : a ≤ (st.balances c).getD 0 := not_lt.mp hfb
      have hpair : st.balance_of c + st.balance_of t ≤ st.total_supply := by
        rw [hsum]
        have hext : ∑ x ∈ s, st.balance_of x
            = ∑ x ∈ insert c (insert t s), st.balance_of x := by
          refine Finset.sum_subset ?_ ?_
          · exact (Finset.subset_insert t s).trans (Finset.subset_insert c _)
          · intro x _ hxs
            exact h0 x hxs
        rw [hext]
        have hsubset : ({c, t} : Finset Nat) ⊆ insert c (insert t s) := by
          intro x hx
          simp only [Finset.mem_insert, Finset.mem_singleton] at hx
          simp only [Finset.mem_insert]
          tauto
        have hle := Finset.sum_le_sum_of_subset hsubset (f := st.balance_of)
        rwa [Finset.sum_pair hne] at hle
      have hta : (st.balances t).getD 0 + a ≤ UMAX := by
        have hc' : st.balance_of c = (st.balances c).getD 0 := rfl
        have ht' : st.balance_of t = (st.balances t).getD 0 := rfl
        omega
      simp [Token.transfer, hne, hfb, checked_sub, checked_add, hsub, hta]

/-- Witness for C10: the concrete state where account 0 holds 100 of a
100-token supply conserves, so a transfer of 30 to account 1 does not
hit the overflow panic branch. -/
theorem transfer_no_panic_from_conserving_witness :
    (Token.transfer
        { balances := fun x => if x = 0 then some 100 else none,
          owner := 0, total_supply := 100 } 0 1 30).1
      ≠ Res.panicked "Overflow when adding to balance" :=
  transfer_no_panic_from_conserving
    { balances := fun x => if x = 0 then some 100 else none,
      owner := 0, total_supply := 100 }
    ⟨{0}, by
        intro x hx
        simp only [Finset.mem_singleton] at hx
        simp [Token.balance_of, hx],
      by simp [Token.balance_of]⟩
    (by decide) 0 1 30 "Overflow when adding to balance"

/-- C5 (modelled from the spec): the mature iteration's `transfer`
performs its precondition checks in a fixed order with the first failure
winning: a halted ledger yields `ContractPaused` no matter what else
holds; otherwise a restricted sender or recipient yields `Blacklisted`
even for a self-transfer with an empty balance; otherwise a sender equal
to the recipient yields `SelfTransfer` even with an insufficient
balance; otherwise a sender balance below the amount yields
`InsufficientBalance`. -/
theorem transfer_check_order (st : LedgerState) (c t a : Nat) :
    (st.halted = true → st.transfer c t a = Except.error SpecError.ContractPaused) ∧
    (st.halted = false → (st.restricted c || st.restricted t) = true →
      st.transfer c t a = Except.error SpecError.Blacklisted) ∧
    (st.halted = false → st.restricted c = false → st.restricted t = false → c = t →
      st.transfer c t a = Except.error SpecError.SelfTransfer) ∧
    (st.halted = false → st.restricted c = false → st.restricted t = false → c ≠ t →
      st.balance_of c < a →
      st.transfer c t a = Except.error SpecError.InsufficientBalance) := by
  refine ⟨?_, ?_, ?_, ?_⟩
  · intro hh
    simp [LedgerState.transfer, hh]
  · intro hh hr
    simp [LedgerState.transfer, hh, hr]
  · intro hh hrc hrt hct
    simp [LedgerState.transfer, hh, hrc, hrt, hct]
  · intro hh hrc hrt hct hb
    have hb' : (st.balances c).getD 0 < a := hb
    simp [LedgerState.transfer, hh, hrc, hrt, hct, hb']

/-- Witness for C5: on a halted ledger `ContractPaused` wins even when
the caller is also restricted, self-transferring and broke; on a live
unrestricted ledger an uncovered amount yields `InsufficientBalance`. -/
theorem transfer_check_order_witness :
    LedgerState.transfer
        { balances := fun _ => none, owner := 0, total_supply := 0,
          halted := true, restricted := fun _ => true } 0 0 5
      = Except.error SpecError.ContractPaused ∧
    LedgerState.transfer
        { balances := fun _ => none, owner := 0, total_supply := 0,
          halted := false, restricted := fun _ => false } 0 1 5
      = Except.error SpecError.InsufficientBalance :=
  ⟨(transfer_check_order
      { balances := fun _ => none, owner := 0, total_supply := 0,
        halted := true, restricted := fun _ => true } 0 0 5).1 rfl,
   (transfer_check_order
      { balances := fun _ => none, owner := 0, total_supply := 0,
        halted := false, restricted := fun _ => false } 0 1 5).2.2.2
      rfl rfl rfl (by decide) (by decide)⟩
